import Mathlib

/-!
Verification development for a single-file expense-tracker web application
(`app.py`).  The application state is three SQLite tables (`expenses`,
`recurring`, `settings`); the only non-trivial logic is the recurring
monthly-expense expansion routine `apply_recurring` with its calendar-month
helper `add_months`.  This file gives a shallow embedding of the data model
and of the routines the specification talks about, and proves the
specification's claims about them.

Modelling conventions:
* Python `datetime.date` values are `Date` records of numerals
  (year, month, day) ordered lexicographically, exactly as Python orders
  dates; SQLite's textual comparison of ISO dates agrees with this order.
* SQLite `REAL` monetary amounts are modelled as exact rationals `ℚ`.
* Python `round(x, 2)` is modelled by `round2` (round half to even at two
  decimal places, Python's rounding mode).
* Each HTTP handler becomes a pure function from (request data, database
  state) to (new database state, rendered data).
-/

/-- A calendar date, as in Python's `datetime.date`: year, month (1-12),
day (1-31). -/
structure Date where
  year : Nat
  month : Nat
  day : Nat
deriving DecidableEq, Repr

/-- Python compares dates lexicographically by (year, month, day). -/
def Date.le (a b : Date) : Prop :=
  a.year < b.year ∨ (a.year = b.year ∧
    (a.month < b.month ∨ (a.month = b.month ∧ a.day ≤ b.day)))

/-- Strict lexicographic order on dates. -/
def Date.lt (a b : Date) : Prop :=
  a.year < b.year ∨ (a.year = b.year ∧
    (a.month < b.month ∨ (a.month = b.month ∧ a.day < b.day)))

instance : LE Date := ⟨Date.le⟩

instance : LT Date := ⟨Date.lt⟩

theorem Date.le_def {a b : Date} : a ≤ b ↔
    (a.year < b.year ∨ (a.year = b.year ∧
      (a.month < b.month ∨ (a.month = b.month ∧ a.day ≤ b.day)))) := Iff.rfl

theorem Date.lt_def {a b : Date} : a < b ↔
    (a.year < b.year ∨ (a.year = b.year ∧
      (a.month < b.month ∨ (a.month = b.month ∧ a.day < b.day)))) := Iff.rfl

instance (a b : Date) : Decidable (a ≤ b) :=
  decidable_of_iff _ Date.le_def.symm

instance (a b : Date) : Decidable (a < b) :=
  decidable_of_iff _ Date.lt_def.symm

theorem Date.not_lt {a b : Date} : ¬ a < b ↔ b ≤ a := by
  rw [Date.lt_def, Date.le_def]; omega

theorem Date.not_le {a b : Date} : ¬ a ≤ b ↔ b < a := by
  rw [Date.lt_def, Date.le_def]; omega

theorem Date.le_refl (a : Date) : a ≤ a := by rw [Date.le_def]; omega

theorem Date.le_of_lt {a b : Date} (h : a < b) : a ≤ b := by
  rw [Date.lt_def] at h; rw [Date.le_def]; omega

theorem Date.le_trans {a b c : Date} (h1 : a ≤ b) (h2 : b ≤ c) : a ≤ c := by
  rw [Date.le_def] at h1 h2; rw [Date.le_def]; omega

theorem Date.lt_trans {a b c : Date} (h1 : a < b) (h2 : b < c) : a < c := by
  rw [Date.lt_def] at h1 h2; rw [Date.lt_def]; omega

theorem Date.lt_of_lt_of_le {a b c : Date} (h1 : a < b) (h2 : b ≤ c) : a < c := by
  rw [Date.lt_def] at h1; rw [Date.le_def] at h2; rw [Date.lt_def]; omega

theorem Date.lt_of_le_of_lt {a b c : Date} (h1 : a ≤ b) (h2 : b < c) : a < c := by
  rw [Date.le_def] at h1; rw [Date.lt_def] at h2; rw [Date.lt_def]; omega

/-- Leap-year test, as written inline in `add_months` (`app.py` line 73):
`year%4==0 and (year%100!=0 or year%400==0)`. -/
def isLeap (year : Nat) : Bool :=
  year % 4 == 0 && (year % 100 != 0 || year % 400 == 0)

/-- Month-length table from `app.py` line 73:
`[31, 29 if leap else 28, 31, 30, 31, 30, 31, 31, 30, 31, 30, 31][month-1]`. -/
def daysInMonth (year month : Nat) : Nat :=
  [31, if isLeap year then 29 else 28, 31, 30, 31, 30, 31, 31, 30, 31,
   30, 31].getD (month - 1) 0

/-- `add_months` from `app.py` lines 69-74:
```
month = dt.month - 1 + months
year  = dt.year + month // 12
month = month % 12 + 1
day   = min(dt.day, days_in_month[month-1])
```
(written here with the two `let`-bound quantities inlined). -/
def add_months (dt : Date) (months : Nat) : Date :=
  ⟨dt.year + (dt.month - 1 + months) / 12,
   (dt.month - 1 + months) % 12 + 1,
   min dt.day
     (daysInMonth (dt.year + (dt.month - 1 + months) / 12)
       ((dt.month - 1 + months) % 12 + 1))⟩

/-- A date whose month field is a real month number. -/
def monthOk (d : Date) : Prop := 1 ≤ d.month ∧ d.month ≤ 12

instance (d : Date) : Decidable (monthOk d) := by
  unfold monthOk; infer_instance

/-- Linear month index: number of whole months since year 0. -/
def midx (d : Date) : Nat := d.year * 12 + (d.month - 1)

theorem midx_add_months (d : Date) :
    midx (add_months d 1) = midx d + 1 := by
  simp only [midx, add_months]
  omega

theorem monthOk_add_months (d : Date) : monthOk (add_months d 1) := by
  simp only [monthOk, add_months]
  omega

theorem lt_add_months {d : Date} (h : monthOk d) : d < add_months d 1 := by
  obtain ⟨h1, h2⟩ := h
  rw [Date.lt_def]
  simp only [add_months]
  omega

theorem midx_mono {a b : Date} (ha : a.month ≤ 12) (hb : 1 ≤ b.month)
    (h : a ≤ b) : midx a ≤ midx b := by
  rw [Date.le_def] at h; unfold midx; omega

/-- The sequence of monthly occurrences generated from an anchor date the
way the loop in `apply_recurring` generates them: each step advances the
most recent date by one calendar month (`occIter a 0 = a`). -/
def occIter (a : Date) : Nat → Date
  | 0 => a
  | n + 1 => add_months (occIter a n) 1

theorem occIter_shift (a : Date) :
    ∀ n, occIter (add_months a 1) n = occIter a (n + 1) := by
  intro n
  induction n with
  | zero => rfl
  | succ n ih => simp only [occIter, ih]

theorem monthOk_occIter {a : Date} (h : monthOk a) (n : Nat) :
    monthOk (occIter a n) := by
  cases n with
  | zero => exact h
  | succ n => exact monthOk_add_months _

theorem midx_occIter (a : Date) (n : Nat) :
    midx (occIter a n) = midx a + n := by
  induction n with
  | zero => rfl
  | succ n ih => simp only [occIter, midx_add_months, ih]; omega

theorem occIter_lt_succ {a : Date} (h : monthOk a) (n : Nat) :
    occIter a n < occIter a (n + 1) :=
  lt_add_months (monthOk_occIter h n)

theorem occIter_lt_of_lt {a : Date} (h : monthOk a) {i j : Nat}
    (hij : i < j) : occIter a i < occIter a j := by
  induction j with
  | zero => omega
  | succ j ih =>
    rcases Nat.lt_succ_iff_lt_or_eq.mp hij with h' | h'
    · exact Date.lt_trans (ih h') (occIter_lt_succ h j)
    · subst h'; exact occIter_lt_succ h i

theorem occIter_le_of_le {a : Date} (h : monthOk a) {i j : Nat}
    (hij : i ≤ j) : occIter a i ≤ occIter a j := by
  rcases Nat.lt_or_ge i j with h' | h'
  · exact Date.le_of_lt (occIter_lt_of_lt h h')
  · have : i = j := by omega
    subst this; exact Date.le_refl _

/-- The `while next_dt <= today` loop of `apply_recurring` (lines 77-85),
viewed as the list of dates it inserts when started at `next`.  The `fuel`
argument only bounds the number of iterations; `apply_recurring` below
passes fuel that provably exceeds the number of months between the anchor
and `today`, so the loop always stops because `next_dt` passed `today`,
exactly as in the source. -/
def occList (today : Date) : Nat → Date → List Date
  | 0, _ => []
  | fuel + 1, next =>
    if next ≤ today then next :: occList today fuel (add_months next 1)
    else []

theorem occList_eq (today : Date) (htoday : 1 ≤ today.month) :
    ∀ (fuel : Nat) (next : Date), monthOk next →
      midx today < midx next + fuel →
      ∃ k, occList today fuel next = (List.range k).map (occIter next) ∧
        (∀ i, i < k → occIter next i ≤ today) ∧
        ¬ occIter next k ≤ today := by
  intro fuel
  induction fuel with
  | zero =>
    intro next hm hf
    refine ⟨0, rfl, by omega, fun hle => ?_⟩
    have := midx_mono hm.2 htoday hle
    simp only [midx_occIter] at this
    omega
  | succ fuel ih =>
    intro next hm hf
    by_cases h : next ≤ today
    · obtain ⟨k, hl, hall, hnot⟩ := ih (add_months next 1)
        (monthOk_add_months next)
        (by rw [midx_add_months]; omega)
      refine ⟨k + 1, ?_, ?_, ?_⟩
      · simp only [occList, if_pos h, hl, List.range_succ_eq_map,
          List.map_cons, List.map_map]
        refine congrArg₂ _ rfl (List.map_congr_left fun i _ => ?_)
        simp only [Function.comp_apply, occIter_shift]
      · intro i hik
        cases i with
        | zero => exact h
        | succ i =>
          have := hall i (by omega)
          rwa [occIter_shift] at this
      · rw [← occIter_shift]; exact hnot
    · exact ⟨0, by simp [occList, h], by omega, h⟩

/-- The dates materialized for one template whose effective anchor
(`last_applied or start_date`) is `anchor`: the loop starts at
`next_dt = add_months(last_dt, 1)` (line 75). -/
def dueOccurrences (today anchor : Date) : List Date :=
  occList today (midx today + 1 - midx anchor) (add_months anchor 1)

theorem dueOccurrences_eq {today anchor : Date} (htoday : 1 ≤ today.month) :
    ∃ k, dueOccurrences today anchor =
        (List.range k).map (fun i => occIter anchor (i + 1)) ∧
      (∀ i, i < k → occIter anchor (i + 1) ≤ today) ∧
      ¬ occIter anchor (k + 1) ≤ today := by
  obtain ⟨k, hl, hall, hnot⟩ := occList_eq today htoday
    (midx today + 1 - midx anchor) (add_months anchor 1)
    (monthOk_add_months anchor)
    (by rw [midx_add_months]; omega)
  refine ⟨k, ?_, ?_, ?_⟩
  · rw [dueOccurrences, hl]
    exact List.map_congr_left fun i _ => occIter_shift anchor i
  · intro i hik; have := hall i hik; rwa [occIter_shift] at this
  · rw [← occIter_shift]; exact hnot

theorem dueOccurrences_nil {today anchor : Date}
    (h : ¬ add_months anchor 1 ≤ today) :
    dueOccurrences today anchor = [] := by
  unfold dueOccurrences
  cases hf : midx today + 1 - midx anchor with
  | zero => rfl
  | succ fuel => simp [occList, h]

/-- One row of the `expenses` table (`app.py` lines 20-27). -/
structure Expense where
  id : Nat
  item : String
  amount : ℚ
  date : Date
  category : String
deriving DecidableEq, Repr

/-- One row of the `recurring` table (`app.py` lines 28-37);
`last_applied` is nullable. -/
structure Recurring where
  id : Nat
  item : String
  amount : ℚ
  start_date : Date
  freq : String
  last_applied : Option Date
  category : String
deriving DecidableEq, Repr

/-- The whole persisted state: the three tables plus the autoincrement
counters for the two tables with generated ids.  The `settings` table is a
key/value store; the values it holds in this application are stringified
numbers, modelled as the numbers themselves. -/
structure DB where
  expenses : List Expense
  recurring : List Recurring
  settings : List (String × ℚ)
  nextId : Nat
  nextRecId : Nat
deriving DecidableEq, Repr

/-- `last = r["last_applied"] or r["start_date"]` (`app.py` line 62). -/
def anchor (r : Recurring) : Date := r.last_applied.getD r.start_date

/-- The per-template body of `apply_recurring` (`app.py` lines 60-85):
skip the template if its anchor is in the future, otherwise run the
monthly catch-up loop, remembering the dates inserted and the final
`last_applied` (which the loop rewrites after every insert, so it ends at
the last inserted date). -/
def applyRecurringTemplate (today : Date) (r : Recurring) :
    List Date × Recurring :=
  let last := anchor r
  if today < last then ([], r)
  else
    let occs := dueOccurrences today last
    match occs.getLast? with
    | none => (occs, r)
    | some d => (occs, { r with last_applied := some d })

theorem getLast?_map_range {α : Type} (f : Nat → α) (k : Nat) :
    ((List.range k).map f).getLast? =
      if k = 0 then none else some (f (k - 1)) := by
  cases k with
  | zero => rfl
  | succ k =>
    rw [List.range_succ, List.map_append]
    simp [List.getLast?_concat]

/-- Master characterization of the per-template expansion step, under the
sole assumptions that `today` and the template's anchor carry real month
numbers. -/
theorem applyRecurringTemplate_char (today : Date) (r : Recurring)
    (ht : 1 ≤ today.month) :
    (today < anchor r ∧ applyRecurringTemplate today r = ([], r)) ∨
    (anchor r ≤ today ∧ ∃ k,
      (applyRecurringTemplate today r).1 =
        (List.range k).map (fun i => occIter (anchor r) (i + 1)) ∧
      (∀ i, i < k → occIter (anchor r) (i + 1) ≤ today) ∧
      ¬ occIter (anchor r) (k + 1) ≤ today ∧
      ((k = 0 ∧ (applyRecurringTemplate today r).2 = r) ∨
       (1 ≤ k ∧ (applyRecurringTemplate today r).2 =
         { r with last_applied := some (occIter (anchor r) k) }))) := by
  by_cases hskip : today < anchor r
  · left
    exact ⟨hskip, by simp [applyRecurringTemplate, hskip]⟩
  · right
    refine ⟨Date.not_lt.mp hskip, ?_⟩
    obtain ⟨k, hl, hall, hnot⟩ :=
      @dueOccurrences_eq today (anchor r) ht
    refine ⟨k, ?_, hall, hnot, ?_⟩
    · simp only [applyRecurringTemplate, if_neg hskip]
      rw [hl]
      cases hg : ((List.range k).map
          (fun i => occIter (anchor r) (i + 1))).getLast? <;> simp
    · simp only [applyRecurringTemplate, if_neg hskip, hl,
        getLast?_map_range]
      cases k with
      | zero => left; simp
      | succ k =>
        right
        refine ⟨by omega, ?_⟩
        simp

theorem applyRecurringTemplate_skip {today : Date} {r : Recurring}
    (h : ¬ add_months (anchor r) 1 ≤ today) :
    applyRecurringTemplate today r = ([], r) := by
  unfold applyRecurringTemplate
  by_cases h2 : today < anchor r
  · simp [if_pos h2]
  · simp [if_neg h2, dueOccurrences_nil h]

/-- Re-running the per-template step right after it has caught up inserts
nothing and leaves the template untouched. -/
theorem applyRecurringTemplate_idem (today : Date) (r : Recurring)
    (ht : 1 ≤ today.month) :
    applyRecurringTemplate today ((applyRecurringTemplate today r).2) =
      ([], (applyRecurringTemplate today r).2) := by
  rcases applyRecurringTemplate_char today r ht with ⟨hskip, heq⟩ |
    ⟨hle, k, hocc, hall, hnot, hcase⟩
  · rw [heq]
    simp [applyRecurringTemplate, hskip]
  · rcases hcase with ⟨hk0, heq⟩ | ⟨hk1, heq⟩
    · rw [heq]
      subst hk0
      refine applyRecurringTemplate_skip ?_
      simpa [occIter] using hnot
    · rw [heq]
      have hanch : anchor { r with last_applied := some (occIter (anchor r) k) } = occIter (anchor r) k := rfl
      have hlek : occIter (anchor r) k ≤ today := by
        have := hall (k - 1) (by omega)
        have hk : k - 1 + 1 = k := by omega
        rwa [hk] at this
      refine applyRecurringTemplate_skip ?_
      rw [hanch]
      simpa [occIter] using hnot

/-- Assign consecutive autoincrement ids to the data of freshly inserted
expense rows. -/
def withIds : Nat → List (String × ℚ × Date × String) → List Expense
  | _, [] => []
  | n, (i, a, d, c) :: t => ⟨n, i, a, d, c⟩ :: withIds (n + 1) t

/-- The `INSERT INTO expenses` data produced by one full pass of
`apply_recurring` over the recurring table, in loop order (`app.py`
lines 79-80): for each template, one row per materialized occurrence with
the template's item, amount and category, dated at the occurrence. -/
def expansionEntries (today : Date) (rs : List Recurring) :
    List (String × ℚ × Date × String) :=
  rs.flatMap (fun r =>
    ((applyRecurringTemplate today r).1).map
      (fun d => (r.item, r.amount, d, r.category)))

/-- `apply_recurring` (`app.py` lines 56-87) as a whole-database step:
every template is brought up to date (its `UPDATE recurring SET
last_applied ... WHERE id` is modelled as the in-place update of its row,
ids being unique), and the materialized rows are appended to `expenses`.
`today` is the as-of date (`datetime.today()` in the source). -/
def apply_recurring (today : Date) (db : DB) : DB :=
  let entries := expansionEntries today db.recurring
  { db with
    expenses := db.expenses ++ withIds db.nextId entries,
    nextId := db.nextId + entries.length,
    recurring :=
      db.recurring.map (fun r => (applyRecurringTemplate today r).2) }

/-- Does pattern `p` match at the head of `s`? (helper for the `LIKE`
substring test). -/
def leadMatch : List Char → List Char → Bool
  | [], _ => true
  | _ :: _, [] => false
  | a :: as, b :: bs => a == b && leadMatch as bs

/-- Does `p` occur as a contiguous sublist of `s`? -/
def hasSub (p : List Char) : List Char → Bool
  | [] => leadMatch p []
  | c :: t => leadMatch p (c :: t) || hasSub p t

/-- SQLite `item LIKE '%q%'` (`app.py` lines 282-283), modelled as
case-insensitive substring containment (SQLite's LIKE is
case-insensitive for ASCII); `%`/`_` wildcards inside `q` itself are not
modelled, no claim depends on them. -/
def likeMatch (q s : String) : Bool :=
  hasSub q.toLower.toList s.toLower.toList

/-- The WHERE clause built by `/view` (`app.py` lines 279-292): free-text
match on item when `q` is non-empty, exact category match, inclusive date
range.  Absent date bounds are `none`; for SQLite the date comparisons are
textual, which on ISO dates coincides with `Date`'s order. -/
def matchesFilters (q cat : String) (fromD toD : Option Date)
    (e : Expense) : Bool :=
  (q == "" || likeMatch q e.item) &&
  (cat == "" || e.category == cat) &&
  (match fromD with
   | none => true
   | some f => decide (f ≤ e.date)) &&
  (match toD with
   | none => true
   | some t => decide (e.date ≤ t))

/-- Insert into a sorted list, keeping `le`-order. -/
def insertE (le : Expense → Expense → Bool) (x : Expense) :
    List Expense → List Expense
  | [] => [x]
  | y :: t => if le x y then x :: y :: t else y :: insertE le x t

/-- Sorting model for SQLite's `ORDER BY`: a total order determined by the
comparison key.  Any sort consistent with the key satisfies the properties
proved below (permutation of the input, sortedness in the key). -/
def sortE (le : Expense → Expense → Bool) : List Expense → List Expense
  | [] => []
  | x :: t => insertE le x (sortE le t)

/-- The ORDER BY clause selected from the `sort` query parameter
(`app.py` lines 293-296): date descending by default, else as requested. -/
def orderRows (sort : String) (l : List Expense) : List Expense :=
  if sort == "date_asc" then sortE (fun a b => decide (a.date ≤ b.date)) l
  else if sort == "amt_desc" then
    sortE (fun a b => decide (b.amount ≤ a.amount)) l
  else if sort == "amt_asc" then
    sortE (fun a b => decide (a.amount ≤ b.amount)) l
  else sortE (fun a b => decide (b.date ≤ a.date)) l

/-- The rows the `/view` listing works with, after the route's initial
`apply_recurring()` call: the stored expenses restricted by the request's
filters. -/
def filteredExpenses (today : Date) (q cat : String)
    (fromD toD : Option Date) (db : DB) : List Expense :=
  ((apply_recurring today db).expenses).filter
    (matchesFilters q cat fromD toD)

/-- GET `/view` (`app.py` lines 271-297): catch up recurring items, then
return the database after expansion together with the filtered, ordered
rows. -/
def view (today : Date) (q cat : String) (fromD toD : Option Date)
    (sort : String) (db : DB) : DB × List Expense :=
  (apply_recurring today db,
   orderRows sort (filteredExpenses today q cat fromD toD db))

/-- Python `max(list)` for non-empty lists, with the `if rows else 0`
guard of the stats block kept at the call site. -/
def pyMax : List ℚ → ℚ
  | [] => 0
  | a :: t => t.foldl max a

/-- Python `min(list)` for non-empty lists. -/
def pyMin : List ℚ → ℚ
  | [] => 0
  | a :: t => t.foldl min a

/-- Python's banker's rounding of a rational to an integer
(`round(x)` rounds halves to the even neighbour). -/
def roundHalfEven (x : ℚ) : ℤ :=
  if x - ⌊x⌋ < 1 / 2 then ⌊x⌋
  else if 1 / 2 < x - ⌊x⌋ then ⌊x⌋ + 1
  else if ⌊x⌋ % 2 = 0 then ⌊x⌋ else ⌊x⌋ + 1

/-- Python `round(x, 2)` as displayed throughout the app. -/
def round2 (x : ℚ) : ℚ := (roundHalfEven (x * 100) : ℚ) / 100

theorem roundHalfEven_eq_of_lt_half {x : ℚ} {n : ℤ} (h1 : (n : ℚ) ≤ x)
    (h2 : x < n + 1 / 2) : roundHalfEven x = n := by
  have hf : ⌊x⌋ = n := by
    rw [Int.floor_eq_iff]
    constructor
    · exact h1
    · linarith
  unfold roundHalfEven
  rw [hf, if_pos]
  linarith

theorem round2_eq_of_lt_half {x : ℚ} {n : ℤ} (h1 : (n : ℚ) ≤ x * 100)
    (h2 : x * 100 < n + 1 / 2) : round2 x = n / 100 := by
  unfold round2
  rw [roundHalfEven_eq_of_lt_half h1 h2]

/-- The four aggregate statistics displayed by `/view` (`app.py` lines
330-335), computed over the passed row set `rows` (the filtered result),
each displayed through `round(·, 2)` with the `if rows else 0` fallback. -/
def viewStatsShown (rows : List Expense) : ℚ × ℚ × ℚ × ℚ :=
  (round2 (if rows = [] then 0 else (rows.map (fun e => e.amount)).sum),
   round2 (if rows = [] then 0 else pyMax (rows.map (fun e => e.amount))),
   round2 (if rows = [] then 0 else pyMin (rows.map (fun e => e.amount))),
   round2 (if rows = [] then 0
     else (rows.map (fun e => e.amount)).sum / rows.length))

/-- `get_setting` (`app.py` lines 90-92) for the budget key, with the
stored stringified number read back as the number it prints. -/
def getBudget (db : DB) : Option ℚ :=
  (db.settings.find? (fun p => p.1 == "budget")).map (fun p => p.2)

/-- `SELECT SUM(amount) FROM expenses` — lifetime total spend. -/
def totalSpent (db : DB) : ℚ := (db.expenses.map (fun e => e.amount)).sum

/-- GET `/charts` (`app.py` lines 414-443) restricted to the budget
report: after the route's `apply_recurring()`, returns (over-budget
banner shown?, over-budget excess displayed, progress percentage
displayed).  The excess is `round(total - budget, 2)` shown exactly when
`budget_val and total > budget_val`; progress is
`round(total / budget * 100, 2)` shown when `budget_val and
budget_val > 0`. -/
def charts (today : Date) (db : DB) : Bool × Option ℚ × Option ℚ :=
  let db2 := apply_recurring today db
  match getBudget db2 with
  | none => (false, none, none)
  | some b =>
    (decide (b ≠ 0 ∧ b < totalSpent db2),
     if b ≠ 0 ∧ b < totalSpent db2 then some (round2 (totalSpent db2 - b))
     else none,
     if b ≠ 0 ∧ 0 < b then some (round2 (totalSpent db2 / b * 100))
     else none)

/-- Python `str.strip()` as used on form fields: drop leading and
trailing whitespace (modelled structurally so it evaluates). -/
def pyStrip (s : String) : String :=
  ⟨((s.data.dropWhile Char.isWhitespace).reverse.dropWhile
    Char.isWhitespace).reverse⟩

/-- The data of an expense form submission, after the upstream numeric
coercion (`float(...)`, invalid input already coerced to 0) and date
defaulting hook (`request.form.get("date") or today`). -/
structure ExpenseForm where
  item : String
  amount : ℚ
  date : Option Date
  category : String

/-- POST `/add` (`app.py` lines 212-225): trim the item, default the
category, and either reject (flash a notice, redirect to the form,
database untouched) when the trimmed item is empty, or insert the row and
redirect to the listing.  Returns (new database, flash message, redirect
target). -/
def addPost (today : Date) (f : ExpenseForm) (db : DB) :
    DB × Option String × String :=
  let item := pyStrip f.item
  let category := if pyStrip f.category = "" then "Other"
    else pyStrip f.category
  if item = "" then (db, some "Please enter an item name", "add")
  else
    ({ db with
        expenses := db.expenses ++
          [⟨db.nextId, item, f.amount, f.date.getD today, category⟩],
        nextId := db.nextId + 1 },
     some "Expense added", "view")

/-- POST `/edit/<id>` (`app.py` lines 350-360): update the row with the
given id unconditionally — the edit handler performs no item-name
validation. -/
def editPost (today : Date) (eid : Nat) (f : ExpenseForm) (db : DB) :
    DB × Option String × String :=
  ({ db with
      expenses := db.expenses.map (fun e =>
        if e.id == eid then
          { e with item := pyStrip f.item, amount := f.amount,
                   date := f.date.getD today, category := f.category }
        else e) },
   some "Updated", "view")

/-- The data of a recurring-template form submission. -/
structure RecurringForm where
  item : String
  amount : ℚ
  start_date : Option Date
  freq : String
  category : String

/-- POST `/recurring` (`app.py` lines 508-520): insert a template; the
`INSERT` names no `last_applied` column, so the new row's `last_applied`
is NULL. -/
def recurringInsert (today : Date) (f : RecurringForm) (db : DB) : DB :=
  { db with
    recurring := db.recurring ++
      [⟨db.nextRecId, pyStrip f.item, f.amount, f.start_date.getD today,
        f.freq, none, f.category⟩],
    nextRecId := db.nextRecId + 1 }

/-- GET `/clear_all` (`app.py` lines 498-503): `DELETE FROM expenses` and
`DELETE FROM recurring`, nothing else. -/
def clear_all (db : DB) : DB := { db with expenses := [], recurring := [] }

theorem insertE_perm (le : Expense → Expense → Bool) (x : Expense) :
    ∀ l : List Expense, (insertE le x l).Perm (x :: l) := by
  intro l
  induction l with
  | nil => exact List.Perm.refl _
  | cons y t ih =>
    unfold insertE
    by_cases h : le x y
    · rw [if_pos h]
    · rw [if_neg h]
      exact (ih.cons y).trans (List.Perm.swap x y t)

theorem sortE_perm (le : Expense → Expense → Bool) :
    ∀ l : List Expense, (sortE le l).Perm l := by
  intro l
  induction l with
  | nil => exact List.Perm.refl _
  | cons x t ih => exact (insertE_perm le x (sortE le t)).trans (ih.cons x)

theorem mem_insertE {le : Expense → Expense → Bool} {x a : Expense}
    {l : List Expense} (h : a ∈ insertE le x l) : a = x ∨ a ∈ l := by
  have := (insertE_perm le x l).mem_iff.mp h
  simpa using this

theorem insertE_pairwise {le : Expense → Expense → Bool}
    (hTot : ∀ a b, le a b = true ∨ le b a = true)
    (hTr : ∀ a b c, le a b = true → le b c = true → le a c = true)
    (x : Expense) :
    ∀ l : List Expense, l.Pairwise (fun a b => le a b = true) →
      (insertE le x l).Pairwise (fun a b => le a b = true) := by
  intro l
  induction l with
  | nil => intro _; simp [insertE]
  | cons y t ih =>
    intro hp
    rw [List.pairwise_cons] at hp
    unfold insertE
    by_cases h : le x y
    · rw [if_pos h]
      refine List.Pairwise.cons ?_ (List.Pairwise.cons hp.1 hp.2)
      intro b hb
      rcases List.mem_cons.mp hb with rfl | hb
      · exact h
      · exact hTr x y b h (hp.1 b hb)
    · rw [if_neg h]
      refine List.Pairwise.cons ?_ (ih hp.2)
      intro b hb
      rcases mem_insertE hb with rfl | hb
      · rcases hTot y b with h' | h'
        · exact h'
        · exact absurd h' h
      · exact hp.1 b hb

theorem sortE_pairwise {le : Expense → Expense → Bool}
    (hTot : ∀ a b, le a b = true ∨ le b a = true)
    (hTr : ∀ a b c, le a b = true → le b c = true → le a c = true) :
    ∀ l : List Expense,
      (sortE le l).Pairwise (fun a b => le a b = true) := by
  intro l
  induction l with
  | nil => simp [sortE]
  | cons x t ih => exact insertE_pairwise hTot hTr x _ ih

theorem orderRows_perm (sort : String) (l : List Expense) :
    (orderRows sort l).Perm l := by
  unfold orderRows
  split
  · exact sortE_perm _ l
  · split
    · exact sortE_perm _ l
    · split
      · exact sortE_perm _ l
      · exact sortE_perm _ l

theorem foldl_max_mem (t : List ℚ) : ∀ a, t.foldl max a = a ∨
    t.foldl max a ∈ t := by
  induction t with
  | nil => intro a; left; rfl
  | cons b t ih =>
    intro a
    rcases ih (max a b) with h | h
    · rcases max_choice a b with h' | h'
      · left; simp only [List.foldl_cons]; rw [h, h']
      · right; simp only [List.foldl_cons]; rw [h, h']; exact .head t
    · right; exact List.mem_cons_of_mem b h

theorem le_foldl_max (t : List ℚ) : ∀ a x, (x = a ∨ x ∈ t) →
    x ≤ t.foldl max a := by
  induction t with
  | nil =>
    intro a x h
    rcases h with rfl | h
    · exact le_refl x
    · simp at h
  | cons b t ih =>
    intro a x h
    simp only [List.foldl]
    rcases h with rfl | h
    · exact le_trans (le_max_left x b) (ih (max x b) _ (Or.inl rfl))
    · rcases List.mem_cons.mp h with rfl | h
      · exact le_trans (le_max_right a x) (ih (max a x) _ (Or.inl rfl))
      · exact ih (max a b) x (Or.inr h)

theorem pyMax_mem {l : List ℚ} (h : l ≠ []) : pyMax l ∈ l := by
  cases l with
  | nil => exact absurd rfl h
  | cons a t =>
    rcases foldl_max_mem t a with h' | h'
    · rw [pyMax, h']; exact .head t
    · exact List.mem_cons_of_mem a h'

theorem le_pyMax {l : List ℚ} {x : ℚ} (h : x ∈ l) : x ≤ pyMax l := by
  cases l with
  | nil => simp at h
  | cons a t =>
    rcases List.mem_cons.mp h with rfl | h
    · exact le_foldl_max t x x (Or.inl rfl)
    · exact le_foldl_max t a x (Or.inr h)

theorem pyMax_perm {l l' : List ℚ} (h : l.Perm l') : pyMax l = pyMax l' := by
  cases l with
  | nil =>
    have := h.nil_eq
    rw [← this]
  | cons a t =>
    have hne : (a :: t) ≠ [] := by simp
    have hne' : l' ≠ [] := by
      intro h0
      rw [h0] at h
      exact hne h.eq_nil
    apply le_antisymm
    · exact le_pyMax (h.mem_iff.mp (pyMax_mem hne))
    · exact le_pyMax (h.mem_iff.mpr (pyMax_mem hne'))

theorem foldl_min_mem (t : List ℚ) : ∀ a, t.foldl min a = a ∨
    t.foldl min a ∈ t := by
  induction t with
  | nil => intro a; left; rfl
  | cons b t ih =>
    intro a
    rcases ih (min a b) with h | h
    · rcases min_choice a b with h' | h'
      · left; simp only [List.foldl_cons]; rw [h, h']
      · right; simp only [List.foldl_cons]; rw [h, h']; exact .head t
    · right; exact List.mem_cons_of_mem b h

theorem foldl_min_le (t : List ℚ) : ∀ a x, (x = a ∨ x ∈ t) →
    t.foldl min a ≤ x := by
  induction t with
  | nil =>
    intro a x h
    rcases h with rfl | h
    · exact le_refl x
    · simp at h
  | cons b t ih =>
    intro a x h
    simp only [List.foldl]
    rcases h with rfl | h
    · exact le_trans (ih (min x b) _ (Or.inl rfl)) (min_le_left x b)
    · rcases List.mem_cons.mp h with rfl | h
      · exact le_trans (ih (min a x) _ (Or.inl rfl)) (min_le_right a x)
      · exact ih (min a b) x (Or.inr h)

theorem pyMin_mem {l : List ℚ} (h : l ≠ []) : pyMin l ∈ l := by
  cases l with
  | nil => exact absurd rfl h
  | cons a t =>
    rcases foldl_min_mem t a with h' | h'
    · rw [pyMin, h']; exact .head t
    · exact List.mem_cons_of_mem a h'

theorem pyMin_le {l : List ℚ} {x : ℚ} (h : x ∈ l) : pyMin l ≤ x := by
  cases l with
  | nil => simp at h
  | cons a t =>
    rcases List.mem_cons.mp h with rfl | h
    · exact foldl_min_le t x x (Or.inl rfl)
    · exact foldl_min_le t a x (Or.inr h)

theorem pyMin_perm {l l' : List ℚ} (h : l.Perm l') : pyMin l = pyMin l' := by
  cases l with
  | nil =>
    have := h.nil_eq
    rw [← this]
  | cons a t =>
    have hne : (a :: t) ≠ [] := by simp
    have hne' : l' ≠ [] := by
      intro h0
      rw [h0] at h
      exact hne h.eq_nil
    apply le_antisymm
    · exact pyMin_le (h.mem_iff.mpr (pyMin_mem hne'))
    · exact pyMin_le (h.mem_iff.mp (pyMin_mem hne))

/-- C10: the `/clear_all` operation deletes every row of the expenses
table and every row of the recurring-templates table, while leaving the
settings table — including any saved budget value — unchanged. -/
theorem clear_all_deletes_tables_keeps_settings (db : DB) :
    (clear_all db).expenses = [] ∧
    (clear_all db).recurring = [] ∧
    (clear_all db).settings = db.settings ∧
    getBudget (clear_all db) = getBudget db := by
  refine ⟨rfl, rfl, rfl, rfl⟩

/-- C3: advancing a monthly occurrence clamps the day-of-month to the last
valid day of the target month, with correct leap-year February: a template
anchored Jan 31 of any year `y` produces the occurrences Feb 28 (Feb 29 in
a leap year) and then Mar 28/29, never Mar 31 and never Mar 3. -/
theorem jan31_clamps_feb_mar (y : Nat) :
    occIter ⟨y, 1, 31⟩ 1 = ⟨y, 2, if isLeap y then 29 else 28⟩ ∧
    occIter ⟨y, 1, 31⟩ 2 = ⟨y, 3, if isLeap y then 29 else 28⟩ ∧
    occIter ⟨y, 1, 31⟩ 2 ≠ ⟨y, 3, 31⟩ ∧
    occIter ⟨y, 1, 31⟩ 2 ≠ ⟨y, 3, 3⟩ := by
  have h1 : occIter ⟨y, 1, 31⟩ 1 = ⟨y, 2, if isLeap y then 29 else 28⟩ := by
    show add_months ⟨y, 1, 31⟩ 1 = _
    cases h : isLeap y <;>
      simp [add_months, daysInMonth, h, Date.mk.injEq]
  have h2 : occIter ⟨y, 1, 31⟩ 2 = ⟨y, 3, if isLeap y then 29 else 28⟩ := by
    show add_months (occIter ⟨y, 1, 31⟩ 1) 1 = _
    rw [h1]
    cases h : isLeap y <;>
      simp [add_months, daysInMonth, h, Date.mk.injEq]
  refine ⟨h1, h2, ?_, ?_⟩ <;> rw [h2] <;> cases h : isLeap y <;>
    simp [Date.mk.injEq]

/-- C3 witness: the leap-year instance `y = 2024` of
`jan31_clamps_feb_mar` (Feb 29 and Mar 29). -/
theorem jan31_clamps_feb_mar_witness :
    occIter ⟨2024, 1, 31⟩ 1 = ⟨2024, 2, if isLeap 2024 then 29 else 28⟩ ∧
    occIter ⟨2024, 1, 31⟩ 2 = ⟨2024, 3, if isLeap 2024 then 29 else 28⟩ ∧
    occIter ⟨2024, 1, 31⟩ 2 ≠ ⟨2024, 3, 31⟩ ∧
    occIter ⟨2024, 1, 31⟩ 2 ≠ ⟨2024, 3, 3⟩ :=
  jan31_clamps_feb_mar 2024

/-- C10 witness: `clear_all_deletes_tables_keeps_settings` at a concrete
database holding one expense, one template and a saved budget. -/
theorem clear_all_witness :
    (clear_all ⟨[⟨1, "Tea", 5, ⟨2023, 1, 2⟩, "Food"⟩],
        [⟨1, "Rent", 1000, ⟨2023, 1, 15⟩, "monthly", none, "Other"⟩],
        [("budget", 100)], 2, 2⟩).expenses = [] ∧
    (clear_all ⟨[⟨1, "Tea", 5, ⟨2023, 1, 2⟩, "Food"⟩],
        [⟨1, "Rent", 1000, ⟨2023, 1, 15⟩, "monthly", none, "Other"⟩],
        [("budget", 100)], 2, 2⟩).recurring = [] ∧
    (clear_all ⟨[⟨1, "Tea", 5, ⟨2023, 1, 2⟩, "Food"⟩],
        [⟨1, "Rent", 1000, ⟨2023, 1, 15⟩, "monthly", none, "Other"⟩],
        [("budget", 100)], 2, 2⟩).settings =
      (⟨[⟨1, "Tea", 5, ⟨2023, 1, 2⟩, "Food"⟩],
        [⟨1, "Rent", 1000, ⟨2023, 1, 15⟩, "monthly", none, "Other"⟩],
        [("budget", 100)], 2, 2⟩ : DB).settings ∧
    getBudget (clear_all ⟨[⟨1, "Tea", 5, ⟨2023, 1, 2⟩, "Food"⟩],
        [⟨1, "Rent", 1000, ⟨2023, 1, 15⟩, "monthly", none, "Other"⟩],
        [("budget", 100)], 2, 2⟩) =
      getBudget ⟨[⟨1, "Tea", 5, ⟨2023, 1, 2⟩, "Food"⟩],
        [⟨1, "Rent", 1000, ⟨2023, 1, 15⟩, "monthly", none, "Other"⟩],
        [("budget", 100)], 2, 2⟩ :=
  clear_all_deletes_tables_keeps_settings _

/-- The empty database with the spec's Rent template
(item "Rent", amount 1000, start 2023-01-15, monthly, never applied). -/
def rentDB : DB :=
  ⟨[], [⟨1, "Rent", 1000, ⟨2023, 1, 15⟩, "monthly", none, "Other"⟩],
   [], 1, 2⟩

/-- C4 counterexample: the spec's scenario expects 3 materialized rows,
but running the expansion on the Rent template with as-of 2023-04-01
inserts 2 rows (2023-02-15 and 2023-03-15; 2023-04-15 is after the as-of
date, and nothing is materialized on the start date itself). -/
theorem rent_scenario_not_three_rows :
    (apply_recurring ⟨2023, 4, 1⟩ rentDB).expenses.length ≠ 3 := by
  decide

/-- C4 amended: the Rent scenario materializes exactly 2 expense rows,
dated 2023-02-15 and 2023-03-15 (the 2023-04-15 occurrence is excluded
because it is after the as-of date 2023-04-01), and leaves `last_applied`
equal to 2023-03-15. -/
theorem rent_scenario_two_rows :
    (apply_recurring ⟨2023, 4, 1⟩ rentDB).expenses =
      [⟨1, "Rent", 1000, ⟨2023, 2, 15⟩, "Other"⟩,
       ⟨2, "Rent", 1000, ⟨2023, 3, 15⟩, "Other"⟩] ∧
    (apply_recurring ⟨2023, 4, 1⟩ rentDB).recurring =
      [⟨1, "Rent", 1000, ⟨2023, 1, 15⟩, "monthly", some ⟨2023, 3, 15⟩,
        "Other"⟩] := by
  constructor <;> decide

/-- C1: for a recurring template with anchor date `anchor r`
(`last_applied` if set, else `start_date`) and as-of date `today ≥ anchor`
with at least one occurrence due, one invocation of the expansion routine
sets `last_applied` to the greatest monthly occurrence `≤ today`
(occurrence `j ≥ 1` is `occIter (anchor r) j`: each step one calendar
month after the previous, day clamped), and the inserted rows are exactly
one row per occurrence in `(anchor, last_applied]`, in chronological
order, not collapsed; for a database holding this template they carry the
template's item, amount and category, dated at the occurrence. -/
theorem recurring_expansion_catch_up (today : Date) (r : Recurring)
    (ht : 1 ≤ today.month) (hm : monthOk (anchor r))
    (hAT : anchor r ≤ today)
    (hdue : add_months (anchor r) 1 ≤ today) :
    ∃ k, 1 ≤ k ∧
      (applyRecurringTemplate today r).2 =
        { r with last_applied := some (occIter (anchor r) k) } ∧
      occIter (anchor r) k ≤ today ∧
      ¬ occIter (anchor r) (k + 1) ≤ today ∧
      (∀ j, 1 ≤ j → (occIter (anchor r) j ≤ today ↔ j ≤ k)) ∧
      (applyRecurringTemplate today r).1 =
        (List.range k).map (fun i => occIter (anchor r) (i + 1)) ∧
      ((applyRecurringTemplate today r).1).Pairwise (· < ·) ∧
      (∀ db : DB, db.recurring = [r] →
        (apply_recurring today db).expenses =
          db.expenses ++ withIds db.nextId
            (((applyRecurringTemplate today r).1).map
              (fun d => (r.item, r.amount, d, r.category)))) := by
  rcases applyRecurringTemplate_char today r ht with ⟨hskip, _⟩ |
    ⟨hle, k, hocc, hall, hnot, hcase⟩
  · exact absurd hskip (Date.not_lt.mpr hAT)
  · have hk1 : 1 ≤ k := by
      by_contra hk
      have hk0 : k = 0 := by omega
      subst hk0
      exact hnot (by simpa [occIter] using hdue)
    rcases hcase with ⟨hk0, _⟩ | ⟨_, heq⟩
    · omega
    · refine ⟨k, hk1, heq, ?_, hnot, ?_, hocc, ?_, ?_⟩
      · have := hall (k - 1) (by omega)
        have hk : k - 1 + 1 = k := by omega
        rwa [hk] at this
      · intro j hj
        constructor
        · intro hjle
          by_contra hjk
          have hkj : k + 1 ≤ j := by omega
          exact hnot (Date.le_trans (occIter_le_of_le hm hkj) hjle)
        · intro hjk
          have := hall (j - 1) (by omega)
          have hj' : j - 1 + 1 = j := by omega
          rwa [hj'] at this
      · rw [hocc]
        refine List.Pairwise.map _ ?_ (List.pairwise_lt_range k)
        intro a b hab
        exact occIter_lt_of_lt hm (by omega)
      · intro db hdb
        simp [apply_recurring, expansionEntries, hdb]

/-- C1 witness: `recurring_expansion_catch_up` at the Rent template
(start 2023-01-15, never applied) with as-of date 2023-04-01, all
hypotheses discharged by evaluation. -/
theorem recurring_expansion_catch_up_witness :
    1 ≤ (⟨2023, 4, 1⟩ : Date).month ∧
    monthOk (anchor ⟨7, "Rent", 1000, ⟨2023, 1, 15⟩, "monthly", none,
      "Other"⟩) ∧
    anchor ⟨7, "Rent", 1000, ⟨2023, 1, 15⟩, "monthly", none, "Other"⟩ ≤
      ⟨2023, 4, 1⟩ ∧
    add_months (anchor ⟨7, "Rent", 1000, ⟨2023, 1, 15⟩, "monthly", none,
      "Other"⟩) 1 ≤ ⟨2023, 4, 1⟩ ∧
    (∃ k, 1 ≤ k ∧
      (applyRecurringTemplate ⟨2023, 4, 1⟩
        ⟨7, "Rent", 1000, ⟨2023, 1, 15⟩, "monthly", none, "Other"⟩).2 =
        { (⟨7, "Rent", 1000, ⟨2023, 1, 15⟩, "monthly", none, "Other"⟩ :
            Recurring) with
          last_applied := some (occIter (anchor ⟨7, "Rent", 1000,
            ⟨2023, 1, 15⟩, "monthly", none, "Other"⟩) k) } ∧
      occIter (anchor ⟨7, "Rent", 1000, ⟨2023, 1, 15⟩, "monthly", none,
        "Other"⟩) k ≤ ⟨2023, 4, 1⟩ ∧
      ¬ occIter (anchor ⟨7, "Rent", 1000, ⟨2023, 1, 15⟩, "monthly", none,
        "Other"⟩) (k + 1) ≤ ⟨2023, 4, 1⟩ ∧
      (∀ j, 1 ≤ j → (occIter (anchor ⟨7, "Rent", 1000, ⟨2023, 1, 15⟩,
        "monthly", none, "Other"⟩) j ≤ ⟨2023, 4, 1⟩ ↔ j ≤ k)) ∧
      (applyRecurringTemplate ⟨2023, 4, 1⟩
        ⟨7, "Rent", 1000, ⟨2023, 1, 15⟩, "monthly", none, "Other"⟩).1 =
        (List.range k).map (fun i => occIter (anchor ⟨7, "Rent", 1000,
          ⟨2023, 1, 15⟩, "monthly", none, "Other"⟩) (i + 1)) ∧
      ((applyRecurringTemplate ⟨2023, 4, 1⟩
        ⟨7, "Rent", 1000, ⟨2023, 1, 15⟩, "monthly", none,
          "Other"⟩).1).Pairwise (· < ·) ∧
      (∀ db : DB, db.recurring =
          [⟨7, "Rent", 1000, ⟨2023, 1, 15⟩, "monthly", none, "Other"⟩] →
        (apply_recurring ⟨2023, 4, 1⟩ db).expenses =
          db.expenses ++ withIds db.nextId
            (((applyRecurringTemplate ⟨2023, 4, 1⟩
              ⟨7, "Rent", 1000, ⟨2023, 1, 15⟩, "monthly", none,
                "Other"⟩).1).map
              (fun d => ("Rent", (1000 : ℚ), d, "Other"))))) :=
  ⟨by decide, by decide, by decide, by decide,
   recurring_expansion_catch_up ⟨2023, 4, 1⟩
     ⟨7, "Rent", 1000, ⟨2023, 1, 15⟩, "monthly", none, "Other"⟩
     (by decide) (by decide) (by decide) (by decide)⟩

/-- C2: recurring expansion is idempotent per as-of date: running the
routine a second time with the same as-of date inserts no expense rows and
changes no `last_applied` — the whole database state is unchanged. -/
theorem apply_recurring_idempotent (today : Date) (db : DB)
    (ht : 1 ≤ today.month) :
    apply_recurring today (apply_recurring today db) =
      apply_recurring today db := by
  have hone : ∀ r : Recurring,
      applyRecurringTemplate today ((applyRecurringTemplate today r).2) =
        ([], (applyRecurringTemplate today r).2) :=
    fun r => applyRecurringTemplate_idem today r ht
  have hentries : expansionEntries today
      (db.recurring.map (fun r => (applyRecurringTemplate today r).2)) =
        [] := by
    refine List.flatMap_eq_nil_iff.mpr ?_
    intro x hx
    obtain ⟨r, _, rfl⟩ := List.mem_map.mp hx
    rw [hone r]
    rfl
  have hmap : db.recurring.map ((fun r => (applyRecurringTemplate today r).2) ∘
      (fun r => (applyRecurringTemplate today r).2)) =
      db.recurring.map (fun r => (applyRecurringTemplate today r).2) := by
    refine List.map_congr_left fun r _ => ?_
    simp only [Function.comp_apply]
    rw [hone r]
  unfold apply_recurring
  rw [hentries]
  simp only [withIds, List.append_nil, List.length_nil, Nat.add_zero,
    List.map_map, hmap]

/-- C2 witness: `apply_recurring_idempotent` on a database with one
template two months behind, as-of 2023-03-05. -/
theorem apply_recurring_idempotent_witness :
    1 ≤ (⟨2023, 3, 5⟩ : Date).month ∧
    apply_recurring ⟨2023, 3, 5⟩ (apply_recurring ⟨2023, 3, 5⟩
      ⟨[], [⟨1, "Gym", 50, ⟨2023, 1, 10⟩, "monthly", none, "Health"⟩],
       [], 1, 2⟩) =
      apply_recurring ⟨2023, 3, 5⟩
        ⟨[], [⟨1, "Gym", 50, ⟨2023, 1, 10⟩, "monthly", none, "Health"⟩],
         [], 1, 2⟩ :=
  ⟨by decide, apply_recurring_idempotent ⟨2023, 3, 5⟩ _ (by decide)⟩

/-- C5: once set, `last_applied` is strictly after `start_date`, and it is
monotonically non-decreasing across expansion invocations; newly created
templates are created with `last_applied` unset, and expansion never
touches `start_date`.  Stated for one expansion step on a template
satisfying the invariant. -/
theorem last_applied_invariant (today : Date) (r : Recurring)
    (ht : 1 ≤ today.month) (hm : monthOk (anchor r))
    (hinv : ∀ l, r.last_applied = some l → r.start_date < l) :
    (applyRecurringTemplate today r).2.start_date = r.start_date ∧
    (∀ l', (applyRecurringTemplate today r).2.last_applied = some l' →
      r.start_date < l') ∧
    (∀ l, r.last_applied = some l →
      ∃ l', (applyRecurringTemplate today r).2.last_applied = some l' ∧
        l ≤ l') ∧
    (∀ (today2 : Date) (f : RecurringForm) (db : DB),
      (recurringInsert today2 f db).recurring =
        db.recurring ++ [⟨db.nextRecId, pyStrip f.item, f.amount,
          f.start_date.getD today2, f.freq, none, f.category⟩]) := by
  have hanchor_start : r.start_date ≤ anchor r := by
    unfold anchor
    cases hl : r.last_applied with
    | none => exact Date.le_refl _
    | some l => exact Date.le_of_lt (hinv l hl)
  rcases applyRecurringTemplate_char today r ht with ⟨_, heq⟩ |
    ⟨hle, k, _, hall, hnot, hcase⟩
  · rw [heq]
    refine ⟨rfl, hinv, ?_, fun _ _ _ => rfl⟩
    intro l hl
    exact ⟨l, hl, Date.le_refl l⟩
  · rcases hcase with ⟨_, heq⟩ | ⟨hk1, heq⟩
    · rw [heq]
      refine ⟨rfl, hinv, ?_, fun _ _ _ => rfl⟩
      intro l hl
      exact ⟨l, hl, Date.le_refl l⟩
    · rw [heq]
      have hgt : anchor r < occIter (anchor r) k := by
        have h0 := occIter_lt_of_lt hm (show 0 < k by omega)
        simpa [occIter] using h0
      refine ⟨rfl, ?_, ?_, fun _ _ _ => rfl⟩
      · intro l' hl'
        have hl2 : occIter (anchor r) k = l' := by
          simpa using hl'
        rw [← hl2]
        exact Date.lt_of_le_of_lt hanchor_start hgt
      · intro l hl
        refine ⟨occIter (anchor r) k, by simp, ?_⟩
        have : anchor r = l := by unfold anchor; rw [hl]; rfl
        rw [← this]
        exact Date.le_of_lt hgt

/-- C5 witness: `last_applied_invariant` on a template whose
`last_applied` is already set (2023-02-10, after its start 2023-01-10),
expanded as of 2023-04-20. -/
theorem last_applied_invariant_witness :
    1 ≤ (⟨2023, 4, 20⟩ : Date).month ∧
    monthOk (anchor ⟨3, "Net", 40, ⟨2023, 1, 10⟩, "monthly",
      some ⟨2023, 2, 10⟩, "Bills"⟩) ∧
    (∀ l, (⟨3, "Net", 40, ⟨2023, 1, 10⟩, "monthly", some ⟨2023, 2, 10⟩,
        "Bills"⟩ : Recurring).last_applied = some l →
      (⟨2023, 1, 10⟩ : Date) < l) ∧
    ((applyRecurringTemplate ⟨2023, 4, 20⟩ ⟨3, "Net", 40, ⟨2023, 1, 10⟩,
        "monthly", some ⟨2023, 2, 10⟩, "Bills"⟩).2.start_date =
      ⟨2023, 1, 10⟩ ∧
    (∀ l', (applyRecurringTemplate ⟨2023, 4, 20⟩ ⟨3, "Net", 40,
        ⟨2023, 1, 10⟩, "monthly", some ⟨2023, 2, 10⟩,
        "Bills"⟩).2.last_applied = some l' →
      (⟨2023, 1, 10⟩ : Date) < l') ∧
    (∀ l, (⟨3, "Net", 40, ⟨2023, 1, 10⟩, "monthly", some ⟨2023, 2, 10⟩,
        "Bills"⟩ : Recurring).last_applied = some l →
      ∃ l', (applyRecurringTemplate ⟨2023, 4, 20⟩ ⟨3, "Net", 40,
          ⟨2023, 1, 10⟩, "monthly", some ⟨2023, 2, 10⟩,
          "Bills"⟩).2.last_applied = some l' ∧ l ≤ l') ∧
    (∀ (today2 : Date) (f : RecurringForm) (db : DB),
      (recurringInsert today2 f db).recurring =
        db.recurring ++ [⟨db.nextRecId, pyStrip f.item, f.amount,
          f.start_date.getD today2, f.freq, none, f.category⟩])) :=
  ⟨by decide, by decide,
   by intro l hl; injection hl with h; rw [← h]; decide,
   last_applied_invariant ⟨2023, 4, 20⟩
     ⟨3, "Net", 40, ⟨2023, 1, 10⟩, "monthly", some ⟨2023, 2, 10⟩, "Bills"⟩
     (by decide) (by decide)
     (by intro l hl; injection hl with h; rw [← h]; decide)⟩

theorem orderRows_amt_asc (l : List Expense) :
    orderRows "amt_asc" l =
      sortE (fun a b => decide (a.amount ≤ b.amount)) l := rfl

/-- C6: for every stored expense set and `/view` request: when a
category filter is supplied, every returned row's category equals the
filter value, and a request supplying only the category filter returns
exactly the rows whose category matches (as a multiset); and every
request with `sort=amt_asc` — with or without any filter — returns rows
whose amounts are non-decreasing. -/
theorem view_category_filter_and_sort (today : Date) (db : DB)
    (q cat : String) (fromD toD : Option Date) (sort : String) :
    (cat ≠ "" →
      ∀ e ∈ (view today q cat fromD toD sort db).2, e.category = cat) ∧
    (cat ≠ "" →
      ((view today "" cat none none sort db).2).Perm
        (((apply_recurring today db).expenses).filter
          (fun e => e.category == cat))) ∧
    (((view today q cat fromD toD "amt_asc" db).2).map
      (fun e => e.amount)).Pairwise (· ≤ ·) := by
  refine ⟨?_, ?_, ?_⟩
  · intro hcat e he
    have he' := (orderRows_perm sort _).mem_iff.mp he
    rw [filteredExpenses, List.mem_filter] at he'
    have hm := he'.2
    simp only [matchesFilters, Bool.and_eq_true, Bool.or_eq_true,
      beq_iff_eq] at hm
    rcases hm.1.1.2 with h | h
    · exact absurd h hcat
    · exact h
  · intro hcat
    have hb : (cat == "") = false := beq_eq_false_iff_ne.mpr hcat
    have hfeq : filteredExpenses today "" cat none none db =
        ((apply_recurring today db).expenses).filter
          (fun e => e.category == cat) := by
      unfold filteredExpenses
      refine List.filter_congr fun e _ => ?_
      simp [matchesFilters, hb]
    show (orderRows sort (filteredExpenses today "" cat none none db)).Perm
      (((apply_recurring today db).expenses).filter
        (fun e => e.category == cat))
    rw [hfeq]
    exact orderRows_perm sort _
  · show ((orderRows "amt_asc"
      (filteredExpenses today q cat fromD toD db)).map
        (fun e => e.amount)).Pairwise (· ≤ ·)
    rw [orderRows_amt_asc]
    refine List.Pairwise.map _ (fun a b h => of_decide_eq_true h) ?_
    refine sortE_pairwise ?_ ?_ _
    · intro a b
      rcases le_total a.amount b.amount with h | h
      · left; exact decide_eq_true h
      · right; exact decide_eq_true h
    · intro a b c h1 h2
      exact decide_eq_true
        (le_trans (of_decide_eq_true h1) (of_decide_eq_true h2))

/-- C6 witness: `view_category_filter_and_sort` with filter category
"Food" on a two-row database, the category hypotheses discharged
concretely; the sortedness part is also instantiated at an unfiltered
`sort=amt_asc` request. -/
theorem view_category_filter_and_sort_witness :
    (∀ e ∈ (view ⟨2023, 6, 1⟩ "a" "Food" none none "date_desc"
        ⟨[⟨1, "Tea", 5, ⟨2023, 1, 2⟩, "Food"⟩,
          ⟨2, "Bus", 3, ⟨2023, 1, 3⟩, "Travel"⟩], [], [], 3, 1⟩).2,
      e.category = "Food") ∧
    ((view ⟨2023, 6, 1⟩ "" "Food" none none "date_desc"
        ⟨[⟨1, "Tea", 5, ⟨2023, 1, 2⟩, "Food"⟩,
          ⟨2, "Bus", 3, ⟨2023, 1, 3⟩, "Travel"⟩], [], [], 3, 1⟩).2).Perm
      (((apply_recurring ⟨2023, 6, 1⟩
        ⟨[⟨1, "Tea", 5, ⟨2023, 1, 2⟩, "Food"⟩,
          ⟨2, "Bus", 3, ⟨2023, 1, 3⟩, "Travel"⟩], [], [], 3,
            1⟩).expenses).filter
        (fun e => e.category == "Food")) ∧
    (((view ⟨2023, 6, 1⟩ "" "" none none "amt_asc"
        ⟨[⟨1, "Tea", 5, ⟨2023, 1, 2⟩, "Food"⟩,
          ⟨2, "Bus", 3, ⟨2023, 1, 3⟩, "Travel"⟩], [], [], 3, 1⟩).2).map
      (fun e => e.amount)).Pairwise (· ≤ ·) :=
  ⟨(view_category_filter_and_sort ⟨2023, 6, 1⟩
     ⟨[⟨1, "Tea", 5, ⟨2023, 1, 2⟩, "Food"⟩,
       ⟨2, "Bus", 3, ⟨2023, 1, 3⟩, "Travel"⟩], [], [], 3, 1⟩
     "a" "Food" none none "date_desc").1 (by decide),
   (view_category_filter_and_sort ⟨2023, 6, 1⟩
     ⟨[⟨1, "Tea", 5, ⟨2023, 1, 2⟩, "Food"⟩,
       ⟨2, "Bus", 3, ⟨2023, 1, 3⟩, "Travel"⟩], [], [], 3, 1⟩
     "a" "Food" none none "date_desc").2.1 (by decide),
   (view_category_filter_and_sort ⟨2023, 6, 1⟩
     ⟨[⟨1, "Tea", 5, ⟨2023, 1, 2⟩, "Food"⟩,
       ⟨2, "Bus", 3, ⟨2023, 1, 3⟩, "Travel"⟩], [], [], 3, 1⟩
     "" "" none none "date_desc").2.2⟩

/-- The single expense row (amount 1/1000) used to separate the displayed
(rounded) `/view` statistics from the exact aggregates. -/
def teaRow : Expense := ⟨1, "Tea", 1/1000, ⟨2022, 1, 1⟩, "Food"⟩

/-- A database holding only `teaRow`. -/
def statsCexDB : DB := ⟨[teaRow], [], [], 2, 1⟩

/-- C7 counterexample: the displayed `/view` total is the rounded sum, so
with a single stored expense of amount 1/1000 the displayed total (0) is
not equal to the sum of the filtered result set (1/1000). -/
theorem view_stats_shown_not_exact :
    (viewStatsShown ((view ⟨2023, 1, 1⟩ "" "" none none "date_desc"
      statsCexDB).2)).1 ≠
    ((filteredExpenses ⟨2023, 1, 1⟩ "" "" none none statsCexDB).map
      (fun e => e.amount)).sum := by
  have happ : apply_recurring ⟨2023, 1, 1⟩ statsCexDB = statsCexDB := by
    simp [apply_recurring, expansionEntries, withIds, statsCexDB]
  have hfil : filteredExpenses ⟨2023, 1, 1⟩ "" "" none none statsCexDB =
      [teaRow] := by
    unfold filteredExpenses
    rw [happ]
    show List.filter (matchesFilters "" "" none none) [teaRow] = _
    simp [matchesFilters]
  have hrows : (view ⟨2023, 1, 1⟩ "" "" none none "date_desc"
      statsCexDB).2 = [teaRow] := by
    show orderRows "date_desc" (filteredExpenses ⟨2023, 1, 1⟩ "" "" none
      none statsCexDB) = [teaRow]
    rw [hfil]
    rfl
  rw [hrows, hfil]
  have hne : ([teaRow] : List Expense) ≠ [] := by simp
  have hstat : (viewStatsShown [teaRow]).1 =
      round2 (if ([teaRow] : List Expense) = [] then 0
        else (([teaRow] : List Expense).map (fun e => e.amount)).sum) := rfl
  rw [hstat, if_neg hne]
  simp only [List.map_cons, List.map_nil, List.sum_cons, List.sum_nil,
    add_zero]
  have ha : teaRow.amount = 1/1000 := rfl
  rw [ha]
  have h2 : round2 ((1 : ℚ)/1000) = 0 := by
    have hx := @round2_eq_of_lt_half ((1 : ℚ)/1000) 0 (by norm_num)
      (by norm_num)
    simpa using hx
  rw [h2]
  norm_num

/-- C7 amended: the aggregate statistics shown on the `/view` listing
(total, highest, lowest, average) are the two-decimal roundings of,
respectively, the sum, maximum, minimum and arithmetic mean of the
amounts of the currently filtered result set — not of the whole expenses
table — and all four are 0 when the filtered set is empty. -/
theorem view_stats_over_filtered (today : Date) (db : DB)
    (q cat : String) (fromD toD : Option Date) (sort : String) :
    viewStatsShown ((view today q cat fromD toD sort db).2) =
      (round2 (if filteredExpenses today q cat fromD toD db = [] then 0
        else ((filteredExpenses today q cat fromD toD db).map
          (fun e => e.amount)).sum),
       round2 (if filteredExpenses today q cat fromD toD db = [] then 0
        else pyMax ((filteredExpenses today q cat fromD toD db).map
          (fun e => e.amount))),
       round2 (if filteredExpenses today q cat fromD toD db = [] then 0
        else pyMin ((filteredExpenses today q cat fromD toD db).map
          (fun e => e.amount))),
       round2 (if filteredExpenses today q cat fromD toD db = [] then 0
        else ((filteredExpenses today q cat fromD toD db).map
            (fun e => e.amount)).sum /
          (filteredExpenses today q cat fromD toD db).length)) ∧
    (filteredExpenses today q cat fromD toD db = [] →
      viewStatsShown ((view today q cat fromD toD sort db).2) =
        (0, 0, 0, 0)) := by
  have hperm := orderRows_perm sort (filteredExpenses today q cat fromD toD db)
  have hnil : ((view today q cat fromD toD sort db).2 = []) ↔
      (filteredExpenses today q cat fromD toD db = []) := by
    constructor
    · intro h
      have h2 := hperm
      rw [show (view today q cat fromD toD sort db).2 =
        orderRows sort (filteredExpenses today q cat fromD toD db)
        from rfl] at h
      rw [h] at h2
      exact h2.nil_eq.symm
    · intro h
      rw [show (view today q cat fromD toD sort db).2 =
        orderRows sort (filteredExpenses today q cat fromD toD db)
        from rfl]
      rw [h] at hperm ⊢
      exact hperm.eq_nil
  have hsum : (((view today q cat fromD toD sort db).2).map
      (fun e => e.amount)).sum =
      ((filteredExpenses today q cat fromD toD db).map
        (fun e => e.amount)).sum :=
    (hperm.map _).sum_eq
  have hmax : pyMax (((view today q cat fromD toD sort db).2).map
      (fun e => e.amount)) =
      pyMax ((filteredExpenses today q cat fromD toD db).map
        (fun e => e.amount)) :=
    pyMax_perm (hperm.map _)
  have hmin : pyMin (((view today q cat fromD toD sort db).2).map
      (fun e => e.amount)) =
      pyMin ((filteredExpenses today q cat fromD toD db).map
        (fun e => e.amount)) :=
    pyMin_perm (hperm.map _)
  have hlen : ((view today q cat fromD toD sort db).2).length =
      (filteredExpenses today q cat fromD toD db).length :=
    hperm.length_eq
  have hmain : viewStatsShown ((view today q cat fromD toD sort db).2) =
      (round2 (if filteredExpenses today q cat fromD toD db = [] then 0
        else ((filteredExpenses today q cat fromD toD db).map
          (fun e => e.amount)).sum),
       round2 (if filteredExpenses today q cat fromD toD db = [] then 0
        else pyMax ((filteredExpenses today q cat fromD toD db).map
          (fun e => e.amount))),
       round2 (if filteredExpenses today q cat fromD toD db = [] then 0
        else pyMin ((filteredExpenses today q cat fromD toD db).map
          (fun e => e.amount))),
       round2 (if filteredExpenses today q cat fromD toD db = [] then 0
        else ((filteredExpenses today q cat fromD toD db).map
            (fun e => e.amount)).sum /
          (filteredExpenses today q cat fromD toD db).length)) := by
    unfold viewStatsShown
    simp only [hnil, hsum, hmax, hmin, hlen]
  refine ⟨hmain, fun h => ?_⟩
  rw [hmain, h]
  have h0 : round2 0 = 0 := by
    have hx := @round2_eq_of_lt_half 0 0 (by norm_num) (by norm_num)
    simpa using hx
  simp [h0]

/-- C7 witness: `view_stats_over_filtered` instantiated on a concrete
database and request. -/
theorem view_stats_over_filtered_witness :
    viewStatsShown ((view ⟨2023, 2, 2⟩ "" "Food" none none "amt_asc"
      ⟨[⟨1, "Tea", 5, ⟨2023, 1, 2⟩, "Food"⟩], [], [], 2, 1⟩).2) =
      (round2 (if filteredExpenses ⟨2023, 2, 2⟩ "" "Food" none none
          ⟨[⟨1, "Tea", 5, ⟨2023, 1, 2⟩, "Food"⟩], [], [], 2, 1⟩ = [] then 0
        else ((filteredExpenses ⟨2023, 2, 2⟩ "" "Food" none none
          ⟨[⟨1, "Tea", 5, ⟨2023, 1, 2⟩, "Food"⟩], [], [], 2, 1⟩).map
          (fun e => e.amount)).sum),
       round2 (if filteredExpenses ⟨2023, 2, 2⟩ "" "Food" none none
          ⟨[⟨1, "Tea", 5, ⟨2023, 1, 2⟩, "Food"⟩], [], [], 2, 1⟩ = [] then 0
        else pyMax ((filteredExpenses ⟨2023, 2, 2⟩ "" "Food" none none
          ⟨[⟨1, "Tea", 5, ⟨2023, 1, 2⟩, "Food"⟩], [], [], 2, 1⟩).map
          (fun e => e.amount))),
       round2 (if filteredExpenses ⟨2023, 2, 2⟩ "" "Food" none none
          ⟨[⟨1, "Tea", 5, ⟨2023, 1, 2⟩, "Food"⟩], [], [], 2, 1⟩ = [] then 0
        else pyMin ((filteredExpenses ⟨2023, 2, 2⟩ "" "Food" none none
          ⟨[⟨1, "Tea", 5, ⟨2023, 1, 2⟩, "Food"⟩], [], [], 2, 1⟩).map
          (fun e => e.amount))),
       round2 (if filteredExpenses ⟨2023, 2, 2⟩ "" "Food" none none
          ⟨[⟨1, "Tea", 5, ⟨2023, 1, 2⟩, "Food"⟩], [], [], 2, 1⟩ = [] then 0
        else ((filteredExpenses ⟨2023, 2, 2⟩ "" "Food" none none
          ⟨[⟨1, "Tea", 5, ⟨2023, 1, 2⟩, "Food"⟩], [], [], 2, 1⟩).map
            (fun e => e.amount)).sum /
          (filteredExpenses ⟨2023, 2, 2⟩ "" "Food" none none
          ⟨[⟨1, "Tea", 5, ⟨2023, 1, 2⟩, "Food"⟩], [], [], 2, 1⟩).length)) ∧
    (filteredExpenses ⟨2023, 2, 2⟩ "" "Food" none none
        ⟨[⟨1, "Tea", 5, ⟨2023, 1, 2⟩, "Food"⟩], [], [], 2, 1⟩ = [] →
      viewStatsShown ((view ⟨2023, 2, 2⟩ "" "Food" none none "amt_asc"
        ⟨[⟨1, "Tea", 5, ⟨2023, 1, 2⟩, "Food"⟩], [], [], 2, 1⟩).2) =
        (0, 0, 0, 0)) :=
  view_stats_over_filtered ⟨2023, 2, 2⟩
    ⟨[⟨1, "Tea", 5, ⟨2023, 1, 2⟩, "Food"⟩], [], [], 2, 1⟩
    "" "Food" none none "amt_asc"

/-- C8 amended: for a saved budget `b > 0` and lifetime total spend `t`
(over all expense rows, after the route's recurring catch-up), `/charts`
shows the over-budget banner exactly when `t > b`, with the displayed
excess equal to `t - b` rounded to two decimals and the displayed
progress equal to `t / b * 100` rounded to two decimals; in particular
budget 100 with total spend 150 reports over-budget by exactly 50 and
progress 150%. -/
theorem budget_report (today : Date) (db : DB) (b : ℚ)
    (hb : getBudget (apply_recurring today db) = some b) (hpos : 0 < b) :
    ((charts today db).1 = true ↔
      b < totalSpent (apply_recurring today db)) ∧
    ((charts today db).2.1 =
      if b < totalSpent (apply_recurring today db) then
        some (round2 (totalSpent (apply_recurring today db) - b))
      else none) ∧
    ((charts today db).2.2 =
      some (round2 (totalSpent (apply_recurring today db) / b * 100))) ∧
    (totalSpent (apply_recurring today db) = 150 → b = 100 →
      (charts today db).1 = true ∧
      (charts today db).2.1 = some 50 ∧
      (charts today db).2.2 = some 150) := by
  have hne : b ≠ 0 := ne_of_gt hpos
  have hch : charts today db =
      (decide (b ≠ 0 ∧ b < totalSpent (apply_recurring today db)),
       if b ≠ 0 ∧ b < totalSpent (apply_recurring today db) then
         some (round2 (totalSpent (apply_recurring today db) - b))
       else none,
       if b ≠ 0 ∧ 0 < b then
         some (round2 (totalSpent (apply_recurring today db) / b * 100))
       else none) := by
    simp only [charts]
    rw [hb]
  have h50 : round2 (50 : ℚ) = 50 := by
    have hx := @round2_eq_of_lt_half (50 : ℚ) 5000 (by norm_num)
      (by norm_num)
    rw [hx]; norm_num
  have h150' : round2 (150 : ℚ) = 150 := by
    have hx := @round2_eq_of_lt_half (150 : ℚ) 15000 (by norm_num)
      (by norm_num)
    rw [hx]; norm_num
  refine ⟨?_, ?_, ?_, ?_⟩
  · rw [hch]
    simp [decide_eq_true_eq, hne]
  · rw [hch]
    show (if b ≠ 0 ∧ b < totalSpent (apply_recurring today db) then
        some (round2 (totalSpent (apply_recurring today db) - b))
      else none) = _
    by_cases hlt : b < totalSpent (apply_recurring today db)
    · rw [if_pos ⟨hne, hlt⟩, if_pos hlt]
    · rw [if_neg (fun hc => hlt hc.2), if_neg hlt]
  · rw [hch]
    show (if b ≠ 0 ∧ 0 < b then
        some (round2 (totalSpent (apply_recurring today db) / b * 100))
      else none) = _
    rw [if_pos ⟨hne, hpos⟩]
  · intro ht hb100
    subst hb100
    refine ⟨?_, ?_, ?_⟩
    · rw [hch]
      show decide ((100 : ℚ) ≠ 0 ∧
        (100 : ℚ) < totalSpent (apply_recurring today db)) = true
      rw [ht]
      simp only [decide_eq_true_eq]
      norm_num
    · rw [hch]
      show (if (100 : ℚ) ≠ 0 ∧
          (100 : ℚ) < totalSpent (apply_recurring today db) then
          some (round2 (totalSpent (apply_recurring today db) - 100))
        else none) = some 50
      rw [ht, if_pos ⟨by norm_num, by norm_num⟩]
      have hs : (150 : ℚ) - 100 = 50 := by norm_num
      rw [hs, h50]
    · rw [hch]
      show (if (100 : ℚ) ≠ 0 ∧ (0 : ℚ) < 100 then
          some (round2 (totalSpent (apply_recurring today db) / 100 * 100))
        else none) = some 150
      rw [ht, if_pos ⟨by norm_num, by norm_num⟩]
      have hs : (150 : ℚ) / 100 * 100 = 150 := by norm_num
      rw [hs, h150']

/-- The single expense row (amount 150.001) used to separate the
displayed (rounded) over-budget excess from the exact `t - b`. -/
def overRow : Expense := ⟨1, "Stuff", 150 + 1/1000, ⟨2023, 1, 5⟩, "Other"⟩

/-- A database holding only `overRow` and a saved budget of 100. -/
def budgetCexDB : DB := ⟨[overRow], [], [("budget", 100)], 2, 1⟩

/-- C8 counterexample: with budget 100 and total spend 150.001 the app
displays an over-budget excess of 50 (the two-decimal rounding of
50.001), not the exact `t - b`. -/
theorem budget_excess_rounded_cex :
    (charts ⟨2023, 1, 6⟩ budgetCexDB).2.1 ≠
      some (totalSpent (apply_recurring ⟨2023, 1, 6⟩ budgetCexDB) - 100) := by
  have happ : apply_recurring ⟨2023, 1, 6⟩ budgetCexDB = budgetCexDB := by
    simp [apply_recurring, expansionEntries, withIds, budgetCexDB]
  have hge : getBudget budgetCexDB = some 100 := rfl
  have hch : (charts ⟨2023, 1, 6⟩ budgetCexDB).2.1 =
      if (100 : ℚ) ≠ 0 ∧ (100 : ℚ) < totalSpent budgetCexDB then
        some (round2 (totalSpent budgetCexDB - 100))
      else none := by
    simp only [charts]
    rw [happ, hge]
  have htot0 : totalSpent budgetCexDB = overRow.amount + 0 := rfl
  have htot : totalSpent budgetCexDB = 150 + 1/1000 := by
    rw [htot0, add_zero]
    norm_num [overRow]
  rw [hch, happ, htot]
  rw [if_pos ⟨by norm_num, by norm_num⟩]
  have hs : (150 : ℚ) + 1/1000 - 100 = 50 + 1/1000 := by norm_num
  rw [hs]
  have h2 : round2 ((50 : ℚ) + 1/1000) = 50 := by
    have hx := @round2_eq_of_lt_half ((50 : ℚ) + 1/1000) 5000 (by norm_num)
      (by norm_num)
    rw [hx]; norm_num
  rw [h2]
  intro hcon
  have hinj := Option.some.inj hcon
  norm_num at hinj

/-- C8 witness: `budget_report` on a database with budget 100 and one
expense of 150. -/
theorem budget_report_witness :
    getBudget (apply_recurring ⟨2023, 1, 2⟩
      ⟨[⟨1, "X", 150, ⟨2023, 1, 1⟩, "Other"⟩], [], [("budget", 100)], 2,
        1⟩) = some 100 ∧
    (0 : ℚ) < 100 ∧
    (((charts ⟨2023, 1, 2⟩ ⟨[⟨1, "X", 150, ⟨2023, 1, 1⟩, "Other"⟩], [],
        [("budget", 100)], 2, 1⟩).1 = true ↔
      (100 : ℚ) < totalSpent (apply_recurring ⟨2023, 1, 2⟩
        ⟨[⟨1, "X", 150, ⟨2023, 1, 1⟩, "Other"⟩], [], [("budget", 100)],
          2, 1⟩)) ∧
    ((charts ⟨2023, 1, 2⟩ ⟨[⟨1, "X", 150, ⟨2023, 1, 1⟩, "Other"⟩], [],
        [("budget", 100)], 2, 1⟩).2.1 =
      if (100 : ℚ) < totalSpent (apply_recurring ⟨2023, 1, 2⟩
          ⟨[⟨1, "X", 150, ⟨2023, 1, 1⟩, "Other"⟩], [], [("budget", 100)],
            2, 1⟩) then
        some (round2 (totalSpent (apply_recurring ⟨2023, 1, 2⟩
          ⟨[⟨1, "X", 150, ⟨2023, 1, 1⟩, "Other"⟩], [], [("budget", 100)],
            2, 1⟩) - 100))
      else none) ∧
    ((charts ⟨2023, 1, 2⟩ ⟨[⟨1, "X", 150, ⟨2023, 1, 1⟩, "Other"⟩], [],
        [("budget", 100)], 2, 1⟩).2.2 =
      some (round2 (totalSpent (apply_recurring ⟨2023, 1, 2⟩
        ⟨[⟨1, "X", 150, ⟨2023, 1, 1⟩, "Other"⟩], [], [("budget", 100)],
          2, 1⟩) / 100 * 100))) ∧
    (totalSpent (apply_recurring ⟨2023, 1, 2⟩
        ⟨[⟨1, "X", 150, ⟨2023, 1, 1⟩, "Other"⟩], [], [("budget", 100)],
          2, 1⟩) = 150 → (100 : ℚ) = 100 →
      (charts ⟨2023, 1, 2⟩ ⟨[⟨1, "X", 150, ⟨2023, 1, 1⟩, "Other"⟩], [],
        [("budget", 100)], 2, 1⟩).1 = true ∧
      (charts ⟨2023, 1, 2⟩ ⟨[⟨1, "X", 150, ⟨2023, 1, 1⟩, "Other"⟩], [],
        [("budget", 100)], 2, 1⟩).2.1 = some 50 ∧
      (charts ⟨2023, 1, 2⟩ ⟨[⟨1, "X", 150, ⟨2023, 1, 1⟩, "Other"⟩], [],
        [("budget", 100)], 2, 1⟩).2.2 = some 150)) :=
  ⟨rfl, by norm_num,
   budget_report ⟨2023, 1, 2⟩
     ⟨[⟨1, "X", 150, ⟨2023, 1, 1⟩, "Other"⟩], [], [("budget", 100)], 2, 1⟩
     100 rfl (by norm_num)⟩

/-- C9 counterexample: an edit submission with an empty item name is
persisted — the edit handler performs no item validation, so the expenses
table is changed (the row's item becomes empty), contradicting the claim
for the edit path. -/
theorem edit_empty_item_persists_cex :
    ((editPost ⟨2023, 5, 1⟩ 1 ⟨"", 5, some ⟨2023, 4, 1⟩, "Food"⟩
      ⟨[⟨1, "Coffee", 5, ⟨2023, 4, 1⟩, "Food"⟩], [], [], 2,
        1⟩).1).expenses ≠
    (⟨[⟨1, "Coffee", 5, ⟨2023, 4, 1⟩, "Food"⟩], [], [], 2, 1⟩ :
      DB).expenses := by decide

/-- C9 amended: an `/add` submission whose item name is empty after
trimming flashes "Please enter an item name" and redirects back to the
add form with the database — in particular the expenses table —
unchanged; the `/edit` handler performs no such validation and persists
the update even with an empty item. -/
theorem add_empty_item_rejected (today : Date) (f : ExpenseForm) (db : DB)
    (h : pyStrip f.item = "") :
    addPost today f db = (db, some "Please enter an item name", "add") := by
  simp only [addPost]
  rw [if_pos h]

/-- C9 witness: `add_empty_item_rejected` on a whitespace-only item
submission against a one-row database. -/
theorem add_empty_item_rejected_witness :
    pyStrip (⟨" ", 5, none, "Food"⟩ : ExpenseForm).item = "" ∧
    addPost ⟨2023, 5, 1⟩ ⟨" ", 5, none, "Food"⟩
      ⟨[⟨1, "Coffee", 5, ⟨2023, 4, 1⟩, "Food"⟩], [], [], 2, 1⟩ =
      (⟨[⟨1, "Coffee", 5, ⟨2023, 4, 1⟩, "Food"⟩], [], [], 2, 1⟩,
       some "Please enter an item name", "add") :=
  ⟨by decide,
   add_empty_item_rejected ⟨2023, 5, 1⟩ ⟨" ", 5, none, "Food"⟩
     ⟨[⟨1, "Coffee", 5, ⟨2023, 4, 1⟩, "Food"⟩], [], [], 2, 1⟩
     (by decide)⟩

